import Mathlib

/-!
Verification of `src/lib-gx.js` (ataex/grid-host): the GX container
codec (`GXWriter`/`GXReader`), the chunk framer of `FFControl.print`,
the connection state machine (`FFControl._connect`/`_send`), the print
pipeline's error accumulation, and the telemetry parser
(`parseMapValue`/`parseMapLines`).

Byte buffers are modelled as `List Nat` (one entry per byte); machine
arithmetic is explicit `% 256` / `% 2^32` where the source writes
fixed-width fields.
-/

set_option maxRecDepth 4000

/-! ## Byte-level primitives -/

/-- Little-endian 4-byte encoding, as `Buffer.writeUInt32LE` lays the value
out in memory (stores `v % 2^32`). -/
def u32le (v : Nat) : List Nat :=
  [v % 256, v / 256 % 256, v / 65536 % 256, v / 16777216 % 256]

/-- Little-endian 2-byte encoding, as `Buffer.writeUInt16LE`. -/
def u16le (v : Nat) : List Nat :=
  [v % 256, v / 256 % 256]

/-- `uint32b` (lib-gx.js lines 551-558): big-endian 4-byte encoding via
`(val >> 24) & 0xff`, …, `val & 0xff`.  For `val < 2^32` the JS signed
shift plus mask yields exactly these digits. -/
def uint32b (val : Nat) : List Nat :=
  [val / 16777216 % 256, val / 65536 % 256, val / 256 % 256, val % 256]

/-- Value of the 4 little-endian bytes at position `p` (unchecked). -/
def getU32le (buf : List Nat) (p : Nat) : Nat :=
  buf.getD p 0 + 256 * buf.getD (p + 1) 0 + 65536 * buf.getD (p + 2) 0 +
    16777216 * buf.getD (p + 3) 0

/-- Value of the 2 little-endian bytes at position `p` (unchecked). -/
def getU16le (buf : List Nat) (p : Nat) : Nat :=
  buf.getD p 0 + 256 * buf.getD (p + 1) 0

/-- `buf.readUInt32LE(p)`: Node throws `ERR_OUT_OF_RANGE` when the read
would run past the end of the buffer; the throw is modelled as `none`. -/
def readU32le? (buf : List Nat) (p : Nat) : Option Nat :=
  if p + 4 ≤ buf.length then some (getU32le buf p) else none

/-- `buf.readUInt16LE(p)`, fallible as in Node. -/
def readU16le? (buf : List Nat) (p : Nat) : Option Nat :=
  if p + 2 ≤ buf.length then some (getU16le buf p) else none

/-- `buf.readUInt8(p)`, fallible as in Node. -/
def readU8? (buf : List Nat) (p : Nat) : Option Nat :=
  if p + 1 ≤ buf.length then some (buf.getD p 0) else none

/-! ## GXWriter (lib-gx.js lines 80-118) -/

/-- The 16 bytes `GXWriter` writes at offset 0: the ASCII of
`"xgcode 1.0\n"` followed by five NUL bytes. -/
def magicBytes : List Nat :=
  [120, 103, 99, 111, 100, 101, 32, 49, 46, 48, 10, 0, 0, 0, 0, 0]

/-- The 58-byte header built by the `GXWriter` constructor (lines 92-109).
`time || 100` / `length || 100` make `0` fall back to the default `100`. -/
def gxHeader (bmpLen time length : Nat) : List Nat :=
  magicBytes ++
  u32le 58 ++                                   -- bmp offset
  u32le (58 + bmpLen) ++                        -- gcode offset
  u32le (58 + bmpLen) ++                        -- gcode offset
  u32le (if time = 0 then 100 else time) ++     -- print seconds
  u32le (if length = 0 then 100 else length) ++ -- print filament len mm
  u32le 0 ++
  u16le 1 ++ u16le 200 ++ u16le 20 ++ u16le 3 ++
  u16le 60 ++ u16le 110 ++ u16le 220 ++ u16le 220 ++
  [1, 1]

/-- `GXWriter` output: `Buffer.concat([header, bmp, gcode])` (line 111).
A `null` thumbnail is replaced by the empty buffer before this point
(lines 88-90), so the no-thumbnail case is `bmp = []`. -/
def GXWriter.output (gcode bmp : List Nat) (time length : Nat) : List Nat :=
  gxHeader bmp.length time length ++ bmp ++ gcode

/-! ## GXReader (lib-gx.js lines 22-78) -/

/-- Whitespace bytes removed by JavaScript `String.prototype.trim`
(restricted to the ASCII range; NUL is *not* whitespace). -/
def isJsSpace (b : Nat) : Bool :=
  b == 9 || b == 10 || b == 11 || b == 12 || b == 13 || b == 32

/-- `String.prototype.trim` on a byte string: drop whitespace from both
ends. -/
def asciiTrim (l : List Nat) : List Nat :=
  ((l.dropWhile isJsSpace).reverse.dropWhile isJsSpace).reverse

/-- The `struct` record the `GXReader` constructor fills (lines 28-47). -/
structure GXStruct where
  magic : List Nat
  bmpoff : Nat
  gc1off : Nat
  gc2off : Nat
  prsecs : Nat
  prfila : Nat
  unk01 : Nat
  unk02 : Nat
  unk03 : Nat
  unk04 : Nat
  unk05 : Nat
  unk06 : Nat
  unk07 : Nat
  unk08 : Nat
  unk09 : Nat
  unk10 : Nat
  unk11 : Nat
  index : Nat
deriving DecidableEq

/-- The `GXReader` constructor (lines 23-48): sequential reads starting at
`pos = 16` — six `u32`, eight `u16`, two `u8` — with `index` the final
cursor position 58.  `magic` is `buf.slice(0,16).toString().trim()`.
Nothing is validated: the only failure is a read past the end of the
buffer. -/
def GXReader.read (buf : List Nat) : Option GXStruct :=
  (readU32le? buf 16).bind fun bmpoff =>
  (readU32le? buf 20).bind fun gc1off =>
  (readU32le? buf 24).bind fun gc2off =>
  (readU32le? buf 28).bind fun prsecs =>
  (readU32le? buf 32).bind fun prfila =>
  (readU32le? buf 36).bind fun unk01 =>
  (readU16le? buf 40).bind fun unk02 =>
  (readU16le? buf 42).bind fun unk03 =>
  (readU16le? buf 44).bind fun unk04 =>
  (readU16le? buf 46).bind fun unk05 =>
  (readU16le? buf 48).bind fun unk06 =>
  (readU16le? buf 50).bind fun unk07 =>
  (readU16le? buf 52).bind fun unk08 =>
  (readU16le? buf 54).bind fun unk09 =>
  (readU8? buf 56).bind fun unk10 =>
  (readU8? buf 57).bind fun unk11 =>
  some { magic := asciiTrim (buf.take 16), bmpoff, gc1off, gc2off, prsecs,
         prfila, unk01, unk02, unk03, unk04, unk05, unk06, unk07, unk08,
         unk09, unk10, unk11, index := 58 }

/-- `GXReader.extract` (lines 73-77) writes `buf.slice(bmpoff, gc1off)`
(the thumbnail) and `buf.slice(gc1off, buf.length)` (the gcode) to disk;
modelled as returning the two slices. -/
def GXReader.extractParts (buf : List Nat) (s : GXStruct) : List Nat × List Nat :=
  ((buf.take s.gc1off).drop s.bmpoff, buf.drop s.gc1off)

/-! ## Reader / header helper lemmas -/

theorem gxHeader_length (a t f : Nat) : (gxHeader a t f).length = 58 := by
  simp [gxHeader, magicBytes, u32le, u16le]

theorem GXWriter.output_length (gcode bmp : List Nat) (t f : Nat) :
    (GXWriter.output gcode bmp t f).length = 58 + bmp.length + gcode.length := by
  simp [GXWriter.output, gxHeader_length]
  omega

/-- Unfolded form of a successful read: on any buffer of at least 58
bytes the constructor succeeds and the fields are the raw little-endian
values at their fixed offsets. -/
theorem GXReader.read_of_le (buf : List Nat) (h : 58 ≤ buf.length) :
    GXReader.read buf = some
      { magic := asciiTrim (buf.take 16)
        bmpoff := getU32le buf 16, gc1off := getU32le buf 20
        gc2off := getU32le buf 24, prsecs := getU32le buf 28
        prfila := getU32le buf 32, unk01 := getU32le buf 36
        unk02 := getU16le buf 40, unk03 := getU16le buf 42
        unk04 := getU16le buf 44, unk05 := getU16le buf 46
        unk06 := getU16le buf 48, unk07 := getU16le buf 50
        unk08 := getU16le buf 52, unk09 := getU16le buf 54
        unk10 := buf.getD 56 0, unk11 := buf.getD 57 0, index := 58 } := by
  have h01 : 16 + 4 ≤ buf.length := by omega
  have h02 : 20 + 4 ≤ buf.length := by omega
  have h03 : 24 + 4 ≤ buf.length := by omega
  have h04 : 28 + 4 ≤ buf.length := by omega
  have h05 : 32 + 4 ≤ buf.length := by omega
  have h06 : 36 + 4 ≤ buf.length := by omega
  have h07 : 40 + 2 ≤ buf.length := by omega
  have h08 : 42 + 2 ≤ buf.length := by omega
  have h09 : 44 + 2 ≤ buf.length := by omega
  have h10 : 46 + 2 ≤ buf.length := by omega
  have h11 : 48 + 2 ≤ buf.length := by omega
  have h12 : 50 + 2 ≤ buf.length := by omega
  have h13 : 52 + 2 ≤ buf.length := by omega
  have h14 : 54 + 2 ≤ buf.length := by omega
  have h15 : 56 + 1 ≤ buf.length := by omega
  have h16 : 57 + 1 ≤ buf.length := by omega
  simp only [GXReader.read, readU32le?, readU16le?, readU8?,
             h01, h02, h03, h04, h05, h06, h07, h08, h09, h10, h11, h12,
             h13, h14, h15, h16, ite_true, Option.some_bind]

/-- A buffer shorter than the 58-byte fixed header makes one of the
sequential reads run out of range. -/
theorem GXReader.read_of_lt (buf : List Nat) (h : buf.length < 58) :
    GXReader.read buf = none := by
  rcases e01 : readU32le? buf 16 with _ | v01
  · unfold GXReader.read
    rw [e01]
    rfl
  rcases e02 : readU32le? buf 20 with _ | v02
  · unfold GXReader.read
    rw [e01, e02]
    rfl
  rcases e03 : readU32le? buf 24 with _ | v03
  · unfold GXReader.read
    rw [e01, e02, e03]
    rfl
  rcases e04 : readU32le? buf 28 with _ | v04
  · unfold GXReader.read
    rw [e01, e02, e03, e04]
    rfl
  rcases e05 : readU32le? buf 32 with _ | v05
  · unfold GXReader.read
    rw [e01, e02, e03, e04, e05]
    rfl
  rcases e06 : readU32le? buf 36 with _ | v06
  · unfold GXReader.read
    rw [e01, e02, e03, e04, e05, e06]
    rfl
  rcases e07 : readU16le? buf 40 with _ | v07
  · unfold GXReader.read
    rw [e01, e02, e03, e04, e05, e06, e07]
    rfl
  rcases e08 : readU16le? buf 42 with _ | v08
  · unfold GXReader.read
    rw [e01, e02, e03, e04, e05, e06, e07, e08]
    rfl
  rcases e09 : readU16le? buf 44 with _ | v09
  · unfold GXReader.read
    rw [e01, e02, e03, e04, e05, e06, e07, e08, e09]
    rfl
  rcases e10 : readU16le? buf 46 with _ | v10
  · unfold GXReader.read
    rw [e01, e02, e03, e04, e05, e06, e07, e08, e09, e10]
    rfl
  rcases e11 : readU16le? buf 48 with _ | v11
  · unfold GXReader.read
    rw [e01, e02, e03, e04, e05, e06, e07, e08, e09, e10, e11]
    rfl
  rcases e12 : readU16le? buf 50 with _ | v12
  · unfold GXReader.read
    rw [e01, e02, e03, e04, e05, e06, e07, e08, e09, e10, e11, e12]
    rfl
  rcases e13 : readU16le? buf 52 with _ | v13
  · unfold GXReader.read
    rw [e01, e02, e03, e04, e05, e06, e07, e08, e09, e10, e11, e12, e13]
    rfl
  rcases e14 : readU16le? buf 54 with _ | v14
  · unfold GXReader.read
    rw [e01, e02, e03, e04, e05, e06, e07, e08, e09, e10, e11, e12, e13, e14]
    rfl
  rcases e15 : readU8? buf 56 with _ | v15
  · unfold GXReader.read
    rw [e01, e02, e03, e04, e05, e06, e07, e08, e09, e10, e11, e12, e13, e14, e15]
    rfl
  rcases e16 : readU8? buf 57 with _ | v16
  · unfold GXReader.read
    rw [e01, e02, e03, e04, e05, e06, e07, e08, e09, e10, e11, e12, e13,
        e14, e15, e16]
    rfl
  exfalso
  rw [readU8?, if_neg (by omega)] at e16
  exact Option.noConfusion e16

example : GXReader.read (List.replicate 58 0) =
    some { magic := List.replicate 16 0, bmpoff := 0, gc1off := 0,
           gc2off := 0, prsecs := 0, prfila := 0, unk01 := 0, unk02 := 0,
           unk03 := 0, unk04 := 0, unk05 := 0, unk06 := 0, unk07 := 0,
           unk08 := 0, unk09 := 0, unk10 := 0, unk11 := 0,
           index := 58 } := by decide

theorem getD_output_lt58 (gcode bmp : List Nat) (t f i : Nat) (h : i < 58) :
    (GXWriter.output gcode bmp t f).getD i 0 =
      (gxHeader bmp.length t f).getD i 0 := by
  have hl : i < (gxHeader bmp.length t f).length := by
    rw [gxHeader_length]; exact h
  rw [GXWriter.output, List.append_assoc, List.getD_append _ _ _ _ hl]

theorem getU32le_output_of_lt (gcode bmp : List Nat) (t f p : Nat)
    (h : p + 3 < 58) :
    getU32le (GXWriter.output gcode bmp t f) p =
      getU32le (gxHeader bmp.length t f) p := by
  unfold getU32le
  rw [getD_output_lt58 _ _ _ _ p (by omega),
      getD_output_lt58 _ _ _ _ (p + 1) (by omega),
      getD_output_lt58 _ _ _ _ (p + 2) (by omega),
      getD_output_lt58 _ _ _ _ (p + 3) (by omega)]

theorem getU32le_u32le (v : Nat) (rest : List Nat) :
    getU32le (u32le v ++ rest) 0 = v % 4294967296 := by
  simp [u32le, getU32le]
  omega

theorem getU32le_shift (l m : List Nat) (i : Nat) :
    getU32le (l ++ m) (l.length + i) = getU32le m i := by
  unfold getU32le
  have e0 : (l ++ m).getD (l.length + i) 0 = m.getD i 0 := by
    rw [List.getD_append_right _ _ _ _ (by omega)]
    congr 1
    omega
  have e1 : (l ++ m).getD (l.length + i + 1) 0 = m.getD (i + 1) 0 := by
    rw [List.getD_append_right _ _ _ _ (by omega)]
    congr 1
    omega
  have e2 : (l ++ m).getD (l.length + i + 2) 0 = m.getD (i + 2) 0 := by
    rw [List.getD_append_right _ _ _ _ (by omega)]
    congr 1
    omega
  have e3 : (l ++ m).getD (l.length + i + 3) 0 = m.getD (i + 3) 0 := by
    rw [List.getD_append_right _ _ _ _ (by omega)]
    congr 1
    omega
  rw [e0, e1, e2, e3]

/-- `gxHeader` with all appends re-associated to the right, so that the
shift lemma can peel groups off the front. -/
theorem gxHeader_assoc (a t f : Nat) :
    gxHeader a t f = magicBytes ++ (u32le 58 ++ (u32le (58 + a) ++
      (u32le (58 + a) ++ (u32le (if t = 0 then 100 else t) ++
        (u32le (if f = 0 then 100 else f) ++ (u32le 0 ++ (u16le 1 ++
          (u16le 200 ++ (u16le 20 ++ (u16le 3 ++ (u16le 60 ++ (u16le 110 ++
            (u16le 220 ++ (u16le 220 ++ [1, 1])))))))))))))) := by
  simp [gxHeader, List.append_assoc]

theorem getU32le_gxHeader_16 (a t f : Nat) :
    getU32le (gxHeader a t f) 16 = 58 := by
  rw [gxHeader_assoc, show (16 : Nat) = magicBytes.length + 0 from rfl,
      getU32le_shift, getU32le_u32le]

theorem getU32le_gxHeader_20 (a t f : Nat) :
    getU32le (gxHeader a t f) 20 = (58 + a) % 4294967296 := by
  rw [gxHeader_assoc, show (20 : Nat) = magicBytes.length + 4 from rfl,
      getU32le_shift, show (4 : Nat) = (u32le 58).length + 0 from rfl,
      getU32le_shift, getU32le_u32le]

theorem getU32le_gxHeader_24 (a t f : Nat) :
    getU32le (gxHeader a t f) 24 = (58 + a) % 4294967296 := by
  rw [gxHeader_assoc, show (24 : Nat) = magicBytes.length + 8 from rfl,
      getU32le_shift, show (8 : Nat) = (u32le 58).length + 4 from rfl,
      getU32le_shift, show (4 : Nat) = (u32le (58 + a)).length + 0 from rfl,
      getU32le_shift, getU32le_u32le]

theorem getU32le_gxHeader_28 (a t f : Nat) :
    getU32le (gxHeader a t f) 28 =
      (if t = 0 then 100 else t) % 4294967296 := by
  rw [gxHeader_assoc, show (28 : Nat) = magicBytes.length + 12 from rfl,
      getU32le_shift, show (12 : Nat) = (u32le 58).length + 8 from rfl,
      getU32le_shift, show (8 : Nat) = (u32le (58 + a)).length + 4 from rfl,
      getU32le_shift, show (4 : Nat) = (u32le (58 + a)).length + 0 from rfl,
      getU32le_shift, getU32le_u32le]

theorem getU32le_gxHeader_32 (a t f : Nat) :
    getU32le (gxHeader a t f) 32 =
      (if f = 0 then 100 else f) % 4294967296 := by
  rw [gxHeader_assoc, show (32 : Nat) = magicBytes.length + 16 from rfl,
      getU32le_shift, show (16 : Nat) = (u32le 58).length + 12 from rfl,
      getU32le_shift, show (12 : Nat) = (u32le (58 + a)).length + 8 from rfl,
      getU32le_shift, show (8 : Nat) = (u32le (58 + a)).length + 4 from rfl,
      getU32le_shift,
      show (4 : Nat) = (u32le (if t = 0 then 100 else t)).length + 0 from rfl,
      getU32le_shift, getU32le_u32le]

theorem getU32le_output_16 (gcode bmp : List Nat) (t f : Nat) :
    getU32le (GXWriter.output gcode bmp t f) 16 = 58 := by
  rw [getU32le_output_of_lt _ _ _ _ 16 (by omega), getU32le_gxHeader_16]

theorem getU32le_output_20 (gcode bmp : List Nat) (t f : Nat)
    (h : 58 + bmp.length < 4294967296) :
    getU32le (GXWriter.output gcode bmp t f) 20 = 58 + bmp.length := by
  rw [getU32le_output_of_lt _ _ _ _ 20 (by omega), getU32le_gxHeader_20,
      Nat.mod_eq_of_lt h]

theorem getU32le_output_24 (gcode bmp : List Nat) (t f : Nat)
    (h : 58 + bmp.length < 4294967296) :
    getU32le (GXWriter.output gcode bmp t f) 24 = 58 + bmp.length := by
  rw [getU32le_output_of_lt _ _ _ _ 24 (by omega), getU32le_gxHeader_24,
      Nat.mod_eq_of_lt h]

theorem getU32le_output_28 (gcode bmp : List Nat) (t f : Nat)
    (h : t < 4294967296) :
    getU32le (GXWriter.output gcode bmp t f) 28 =
      (if t = 0 then 100 else t) := by
  rw [getU32le_output_of_lt _ _ _ _ 28 (by omega), getU32le_gxHeader_28,
      Nat.mod_eq_of_lt (by split_ifs <;> omega)]

theorem getU32le_output_32 (gcode bmp : List Nat) (t f : Nat)
    (h : f < 4294967296) :
    getU32le (GXWriter.output gcode bmp t f) 32 =
      (if f = 0 then 100 else f) := by
  rw [getU32le_output_of_lt _ _ _ _ 32 (by omega), getU32le_gxHeader_32,
      Nat.mod_eq_of_lt (by split_ifs <;> omega)]

/-- C1: encoding with `GXWriter` and decoding the produced bytes with
`GXReader` recovers byte-identical thumbnail and toolpath slices
(`extract`'s two slices), and the decoded offsets satisfy
`bmpoff ≤ gc1off = gc2off ≤ length`, for every non-empty toolpath and
every thumbnail (including the empty one). -/
theorem encode_decode_roundtrip (gcode bmp : List Nat) (t f : Nat)
    (hg : gcode ≠ []) (hb : 58 + bmp.length < 4294967296) :
    ∃ s, GXReader.read (GXWriter.output gcode bmp t f) = some s ∧
      GXReader.extractParts (GXWriter.output gcode bmp t f) s =
        (bmp, gcode) ∧
      s.bmpoff ≤ s.gc1off ∧ s.gc1off = s.gc2off ∧
      s.gc2off ≤ (GXWriter.output gcode bmp t f).length := by
  have hlen := GXWriter.output_length gcode bmp t f
  have h58 : 58 ≤ (GXWriter.output gcode bmp t f).length := by omega
  have ht1 : (gxHeader bmp.length t f ++ bmp).length = 58 + bmp.length := by
    rw [List.length_append, gxHeader_length]
  refine ⟨_, GXReader.read_of_le _ h58, ?_, ?_, ?_, ?_⟩
  · dsimp only [GXReader.extractParts]
    rw [getU32le_output_16, getU32le_output_20 gcode bmp t f hb]
    rw [show GXWriter.output gcode bmp t f =
          (gxHeader bmp.length t f ++ bmp) ++ gcode from rfl]
    rw [List.take_left' ht1, List.drop_left' (gxHeader_length bmp.length t f),
        List.drop_left' ht1]
  · dsimp only
    rw [getU32le_output_16, getU32le_output_20 gcode bmp t f hb]
    omega
  · dsimp only
    rw [getU32le_output_20 gcode bmp t f hb, getU32le_output_24 gcode bmp t f hb]
  · dsimp only
    rw [getU32le_output_24 gcode bmp t f hb]
    omega

theorem encode_decode_roundtrip_witness :
    ∃ s, GXReader.read (GXWriter.output [9] [7] 0 0) = some s ∧
      GXReader.extractParts (GXWriter.output [9] [7] 0 0) s = ([7], [9]) ∧
      s.bmpoff ≤ s.gc1off ∧ s.gc1off = s.gc2off ∧
      s.gc2off ≤ (GXWriter.output [9] [7] 0 0).length :=
  encode_decode_roundtrip [9] [7] 0 0 (by decide) (by decide)

/-- C3 (amended): decoding fails exactly when the buffer is shorter than
the fixed 58-byte header (an out-of-range read); nothing else is
validated, so success depends only on the length, never on the magic
tag. -/
theorem read_succeeds_iff_len (buf : List Nat) :
    (GXReader.read buf).isSome = decide (58 ≤ buf.length) := by
  by_cases h : 58 ≤ buf.length
  · rw [GXReader.read_of_le buf h]
    simp [h]
  · rw [GXReader.read_of_lt buf (by omega)]
    simp [h]

/-- C3 counterexample: a 58-byte all-zero buffer, whose magic bytes do
not match the tag `GXWriter` writes, is still decoded successfully — the
reader never checks the magic, contradicting the claim that a mismatched
magic is rejected. -/
theorem read_accepts_bad_magic :
    (GXReader.read (List.replicate 58 0)).isSome = true ∧
    (GXReader.read (List.replicate 58 0)).map GXStruct.magic ≠
      some (asciiTrim magicBytes) := by
  decide

/-- C10: when the caller passes `0` for `time` (print seconds) or
`length` (filament mm), `GXWriter` stores the default `100` in the
header field; a non-zero caller value is stored as supplied. -/
theorem writer_time_filament_defaults (gcode bmp : List Nat) (t f : Nat)
    (ht : t < 4294967296) (hf : f < 4294967296) :
    ∃ s, GXReader.read (GXWriter.output gcode bmp t f) = some s ∧
      s.prsecs = (if t = 0 then 100 else t) ∧
      s.prfila = (if f = 0 then 100 else f) := by
  have hlen := GXWriter.output_length gcode bmp t f
  refine ⟨_, GXReader.read_of_le _ (by omega), ?_, ?_⟩
  · exact getU32le_output_28 gcode bmp t f ht
  · exact getU32le_output_32 gcode bmp t f hf

theorem writer_time_filament_defaults_witness :
    ∃ s, GXReader.read (GXWriter.output [7] [] 0 0) = some s ∧
      s.prsecs = 100 ∧ s.prfila = 100 :=
  writer_time_filament_defaults [7] [] 0 0 (by decide) (by decide)

/-! ## CRC-32 and the chunk framer of `FFControl.print` (lines 491-509) -/

/-- The reflected CRC-32 polynomial 0xEDB88320. -/
def crcPoly : Nat := 0xEDB88320

/-- One bit step of the reflected CRC-32. -/
def crcBitStep (c : Nat) : Nat :=
  if c % 2 = 1 then (c / 2) ^^^ crcPoly else c / 2

/-- One byte step: fold the byte into the register, then eight bit
steps. -/
def crcByteStep (crc b : Nat) : Nat := crcBitStep^[8] (crc ^^^ b)

/-- CRC-32 (IEEE, reflected, init and final xor 0xFFFFFFFF): the value
`crc32.unsigned` of the `buffer-crc32` package computes. -/
def crc32 (data : List Nat) : Nat :=
  (data.foldl crcByteStep 0xFFFFFFFF) ^^^ 0xFFFFFFFF

/-- `buffer.slice(slice*4096, slice*4096 + 4096)` (line 495): the true,
unpadded chunk of block `slice`. -/
def frameChunk (buffer : List Nat) (slice : Nat) : List Nat :=
  (buffer.take (slice * 4096 + 4096)).drop (slice * 4096)

/-- One framed block (loop body, lines 494-508): preamble `5A 5A A5 A5`,
big-endian index, big-endian true length, big-endian CRC-32 of the
unpadded chunk, then the chunk zero-padded to exactly 4096 bytes. -/
def frameBlock (buffer : List Nat) (slice : Nat) : List Nat :=
  let chunk := frameChunk buffer slice
  let crc := crc32 chunk
  let len := chunk.length
  let padded :=
    if len < 4096 then chunk ++ List.replicate (4096 - len) 0 else chunk
  [0x5a, 0x5a, 0xa5, 0xa5] ++ uint32b slice ++ uint32b len ++ uint32b crc ++
    padded

/-- All framed blocks of a buffer: `slices = Math.ceil(length/4096)`
loop iterations in increasing index order (line 491, 494). -/
def printFrames (buffer : List Nat) : List (List Nat) :=
  (List.range ((buffer.length + 4095) / 4096)).map (frameBlock buffer)

theorem frameChunk_length (buffer : List Nat) (i : Nat) :
    (frameChunk buffer i).length =
      min (i * 4096 + 4096) buffer.length - i * 4096 := by
  simp [frameChunk]

theorem frameChunk_length_le (buffer : List Nat) (i : Nat) :
    (frameChunk buffer i).length ≤ 4096 := by
  have := frameChunk_length buffer i
  omega

theorem frameBlock_eq (buffer : List Nat) (i : Nat) :
    frameBlock buffer i =
      [0x5a, 0x5a, 0xa5, 0xa5] ++ uint32b i ++
        uint32b (frameChunk buffer i).length ++
        uint32b (crc32 (frameChunk buffer i)) ++
        (frameChunk buffer i ++
          List.replicate (4096 - (frameChunk buffer i).length) 0) := by
  by_cases h : (frameChunk buffer i).length < 4096
  · simp [frameBlock, h]
  · have h4 : (frameChunk buffer i).length = 4096 := by
      have := frameChunk_length_le buffer i
      omega
    simp [frameBlock, h, h4]

theorem frameBlock_padded_length (buffer : List Nat) (i : Nat) :
    (frameChunk buffer i ++
      List.replicate (4096 - (frameChunk buffer i).length) 0).length =
        4096 := by
  have := frameChunk_length_le buffer i
  simp
  omega

theorem printFrames_length (buffer : List Nat) :
    (printFrames buffer).length = (buffer.length + 4095) / 4096 := by
  simp [printFrames]

theorem printFrames_getD (buffer : List Nat) (i : Nat)
    (h : i < (buffer.length + 4095) / 4096) :
    (printFrames buffer).getD i [] = frameBlock buffer i := by
  rw [printFrames, List.getD_eq_getElem _ _ (by simpa using h)]
  simp

theorem frameChunk_length_of_lt (buffer : List Nat) (i : Nat)
    (h : i + 1 < (buffer.length + 4095) / 4096) :
    (frameChunk buffer i).length = 4096 := by
  have := frameChunk_length buffer i
  omega

theorem frameChunk_length_final (buffer : List Nat) (i : Nat)
    (h : i + 1 = (buffer.length + 4095) / 4096) :
    (frameChunk buffer i).length =
      if buffer.length % 4096 = 0 then 4096 else buffer.length % 4096 := by
  have := frameChunk_length buffer i
  split_ifs with h0 <;> omega

/-- C2: framing a buffer of length `L` produces exactly `⌈L/4096⌉`
frames; frame `i` is laid out as the preamble `5A 5A A5 A5`, big-endian
`u32` index `i`, big-endian true length, big-endian CRC-32 of the
unpadded slice, followed by exactly 4096 bytes of zero-padded payload;
every non-final true length is 4096 and the final one is `L % 4096`
(or 4096 when `L` is an exact multiple of 4096). -/
theorem frame_spec (buffer : List Nat) :
    (printFrames buffer).length = (buffer.length + 4095) / 4096 ∧
    ∀ i, i < (buffer.length + 4095) / 4096 →
      (printFrames buffer).getD i [] =
        [0x5a, 0x5a, 0xa5, 0xa5] ++ uint32b i ++
          uint32b (frameChunk buffer i).length ++
          uint32b (crc32 (frameChunk buffer i)) ++
          (frameChunk buffer i ++
            List.replicate (4096 - (frameChunk buffer i).length) 0) ∧
      (frameChunk buffer i ++
        List.replicate (4096 - (frameChunk buffer i).length) 0).length =
          4096 ∧
      (i + 1 < (buffer.length + 4095) / 4096 →
        (frameChunk buffer i).length = 4096) ∧
      (i + 1 = (buffer.length + 4095) / 4096 →
        (frameChunk buffer i).length =
          if buffer.length % 4096 = 0 then 4096
          else buffer.length % 4096) := by
  refine ⟨printFrames_length buffer, fun i hi => ⟨?_, ?_, ?_, ?_⟩⟩
  · rw [printFrames_getD buffer i hi, frameBlock_eq]
  · exact frameBlock_padded_length buffer i
  · exact frameChunk_length_of_lt buffer i
  · exact frameChunk_length_final buffer i

theorem frame_spec_witness :
    (printFrames [1, 2, 3]).length = 1 ∧
    (frameChunk [1, 2, 3] 0).length = 3 :=
  ⟨(frame_spec [1, 2, 3]).1,
   ((frame_spec [1, 2, 3]).2 0 (by decide)).2.2.2 (by decide)⟩

/-- C7 counterexample: encoding a 5000-byte toolpath with no thumbnail
gives 58 + 5000 = 5058 bytes and 2 frames — but the final frame's true
length is 5058 - 4096 = 962, not the 916 the claim states. -/
theorem scenarioB_cex :
    (GXWriter.output (List.replicate 5000 0) [] 100 100).length = 5058 ∧
    (printFrames
      (GXWriter.output (List.replicate 5000 0) [] 100 100)).length = 2 ∧
    (frameChunk
      (GXWriter.output (List.replicate 5000 0) [] 100 100) 1).length =
        962 ∧
    (frameChunk
      (GXWriter.output (List.replicate 5000 0) [] 100 100) 1).length ≠
        916 := by
  have hlen :
      (GXWriter.output (List.replicate 5000 0) [] 100 100).length = 5058 := by
    rw [GXWriter.output_length, List.length_replicate]
    rfl
  have hfc :=
    frameChunk_length (GXWriter.output (List.replicate 5000 0) [] 100 100) 1
  rw [hlen] at hfc
  refine ⟨hlen, ?_, by omega, by omega⟩
  rw [printFrames_length, hlen]

/-- C7 (amended): a 5000-byte toolpath with no thumbnail encodes to
58 + 5000 bytes; framing that output yields exactly 2 frames, whose
recorded true lengths are 4096 and 962 (= 5058 - 4096). -/
theorem scenarioB_amended :
    (GXWriter.output (List.replicate 5000 0) [] 100 100).length =
      58 + 5000 ∧
    (printFrames
      (GXWriter.output (List.replicate 5000 0) [] 100 100)).length = 2 ∧
    (printFrames
      (GXWriter.output (List.replicate 5000 0) [] 100 100)).getD 0 [] =
      [0x5a, 0x5a, 0xa5, 0xa5] ++ uint32b 0 ++ uint32b 4096 ++
        uint32b (crc32 (frameChunk
          (GXWriter.output (List.replicate 5000 0) [] 100 100) 0)) ++
        frameChunk (GXWriter.output (List.replicate 5000 0) [] 100 100) 0 ∧
    (printFrames
      (GXWriter.output (List.replicate 5000 0) [] 100 100)).getD 1 [] =
      [0x5a, 0x5a, 0xa5, 0xa5] ++ uint32b 1 ++ uint32b 962 ++
        uint32b (crc32 (frameChunk
          (GXWriter.output (List.replicate 5000 0) [] 100 100) 1)) ++
        (frameChunk (GXWriter.output (List.replicate 5000 0) [] 100 100) 1 ++
          List.replicate 3134 0) := by
  have hlen :
      (GXWriter.output (List.replicate 5000 0) [] 100 100).length = 5058 := by
    rw [GXWriter.output_length, List.length_replicate]
    rfl
  have hc0 : (frameChunk
      (GXWriter.output (List.replicate 5000 0) [] 100 100) 0).length =
        4096 := by
    have := frameChunk_length
      (GXWriter.output (List.replicate 5000 0) [] 100 100) 0
    rw [hlen] at this
    omega
  have hc1 : (frameChunk
      (GXWriter.output (List.replicate 5000 0) [] 100 100) 1).length =
        962 := by
    have := frameChunk_length
      (GXWriter.output (List.replicate 5000 0) [] 100 100) 1
    rw [hlen] at this
    omega
  refine ⟨by rw [hlen], by rw [printFrames_length, hlen], ?_, ?_⟩
  · rw [printFrames_getD _ 0 (by rw [hlen]; omega), frameBlock_eq, hc0,
        show (4096 - 4096 : Nat) = 0 from rfl, List.replicate_zero,
        List.append_nil]
  · rw [printFrames_getD _ 1 (by rw [hlen]; omega), frameBlock_eq, hc1,
        show (4096 - 962 : Nat) = 3134 from rfl]

/-! ## The print pipeline's error accumulation (lines 464-524) -/

/-- Outcome of one queued step of `FFControl.print`: the step resolves
(its `cmd_ok` callback receives the reply lines) or rejects (its
`cmd_fail` callback receives an error). -/
inductive StepResult where
  | ok (lines : List String) : StepResult
  | fail (error : String) : StepResult
deriving DecidableEq

/-- The two outer-scope accumulators of `print` (lines 470-471). -/
structure PrintAcc where
  cmd_out : List String
  cmd_err : Option String
deriving DecidableEq

/-- Effect of one step's callback on the accumulators: `cmd_ok`
concatenates the lines (line 473); `cmd_fail` records the error only
when none is recorded yet (lines 475-480). -/
def stepUpdate (acc : PrintAcc) (r : StepResult) : PrintAcc :=
  match r with
  | .ok lines => { acc with cmd_out := acc.cmd_out ++ lines }
  | .fail e =>
    match acc.cmd_err with
    | none => { acc with cmd_err := some e }
    | some _ => acc

/-- The result of `print` as decided by the final `M27` callback
(lines 514-522), after all earlier steps have updated the accumulators:
on success, reject with `cmd_err` when set, else resolve with the
accumulated output; on failure, reject with `cmd_err || fail`. -/
def printRun (steps : List StepResult) (final : StepResult) :
    Except String (List String) :=
  let acc := steps.foldl stepUpdate { cmd_out := [], cmd_err := none }
  match final with
  | .ok _ =>
    match acc.cmd_err with
    | some e => .error e
    | none => .ok acc.cmd_out
  | .fail e2 =>
    match acc.cmd_err with
    | some e => .error e
    | none => .error e2

/-- The first error among the step outcomes. -/
def firstError : List StepResult → Option String
  | [] => none
  | .ok _ :: rest => firstError rest
  | .fail e :: _ => some e

/-- The concatenated lines of every successful step. -/
def okJoin : List StepResult → List String
  | [] => []
  | .ok lines :: rest => lines ++ okJoin rest
  | .fail _ :: rest => okJoin rest

theorem foldl_stepUpdate_err (steps : List StepResult) (out0 : List String)
    (e0 : String) :
    steps.foldl stepUpdate { cmd_out := out0, cmd_err := some e0 } =
      { cmd_out := out0 ++ okJoin steps, cmd_err := some e0 } := by
  induction steps generalizing out0 with
  | nil => simp [okJoin]
  | cons r rest ih =>
    cases r with
    | ok lines => simp [stepUpdate, okJoin, ih, List.append_assoc]
    | fail e => simp [stepUpdate, okJoin, ih]

theorem foldl_stepUpdate (steps : List StepResult) (out0 : List String) :
    steps.foldl stepUpdate { cmd_out := out0, cmd_err := none } =
      { cmd_out := out0 ++ okJoin steps, cmd_err := firstError steps } := by
  induction steps generalizing out0 with
  | nil => simp [okJoin, firstError]
  | cons r rest ih =>
    cases r with
    | ok lines => simp [stepUpdate, okJoin, firstError, ih, List.append_assoc]
    | fail e => simp [stepUpdate, okJoin, firstError, foldl_stepUpdate_err]

/-- C4: when at least one intermediate step of `print` fails, the first
failure is remembered (later failures never replace it), every queued
step still runs — successful output from steps after the failure is
still collected — and the operation resolves to failure carrying that
first error once the terminating `M27` poll completes, whether that
final poll succeeds or fails. -/
theorem print_first_error_wins (steps : List StepResult)
    (final : StepResult) (e : String) (h : firstError steps = some e) :
    steps.foldl stepUpdate { cmd_out := [], cmd_err := none } =
      { cmd_out := okJoin steps, cmd_err := some e } ∧
    printRun steps final = .error e := by
  have hf := foldl_stepUpdate steps []
  rw [h] at hf
  simp only [List.nil_append] at hf
  refine ⟨hf, ?_⟩
  cases final <;> simp [printRun, hf]

theorem print_first_error_wins_witness :
    [StepResult.ok ["a"], StepResult.fail "boom", StepResult.fail "late",
     StepResult.ok ["b"]].foldl stepUpdate
        { cmd_out := [], cmd_err := none } =
      { cmd_out := ["a", "b"], cmd_err := some "boom" } ∧
    printRun [StepResult.ok ["a"], StepResult.fail "boom",
              StepResult.fail "late", StepResult.ok ["b"]]
        (StepResult.ok []) = .error "boom" :=
  print_first_error_wins _ _ "boom" (by decide)

/-! ## Connection state machine (lines 167-171, 228-243, 314-339) -/

/-- `State` (lines 167-171). -/
inductive ConnState where
  | Disconnected : ConnState
  | Connecting : ConnState
  | Connected : ConnState
deriving DecidableEq

/-- The mutable fields of `FFControl` touched by the connect guard and
`_send`, plus two observation logs: `writes` records every
`socket.write` of a dequeued command, `rejectedLog` every
`next.reject(error)` call. -/
structure ControlState where
  state : ConnState
  queue : List String
  error : Option String
  inflight : Option String
  writes : List String
  rejectedLog : List (String × String)
deriving DecidableEq

/-- The entry of `FFControl._connect` (lines 230-243): a connect request
while `Connecting` or `Connected` is rejected with the corresponding
message before anything is mutated; otherwise `init()` resets the queue
and the in-flight slot (`init` does not touch `error`) and the state
becomes `Connecting`. -/
def FFControl.connectGuard (s : ControlState) :
    Except String Unit × ControlState :=
  if s.state = ConnState.Connecting then
    (Except.error "already connecting", s)
  else if s.state = ConnState.Connected then
    (Except.error "already connected", s)
  else
    (Except.ok (),
      { s with state := ConnState.Connecting, queue := [], inflight := none })

/-- `FFControl._send` (lines 323-339): shift the queue; when not
`Connected`, set `error = "disconnected"`; then either return (empty
queue), reject the dequeued command with the error, or write it to the
socket and make it the in-flight command. -/
def FFControl.sendStep (s : ControlState) : ControlState :=
  match s.queue with
  | [] =>
    if s.state ≠ ConnState.Connected then
      { s with error := some "disconnected" }
    else s
  | next :: rest =>
    let s1 : ControlState := { s with queue := rest }
    let s2 : ControlState :=
      if s1.state ≠ ConnState.Connected then
        { s1 with error := some "disconnected" }
      else s1
    match s2.error with
    | some e => { s2 with rejectedLog := s2.rejectedLog ++ [(next, e)] }
    | none => { s2 with inflight := some next, writes := s2.writes ++ [next] }

/-- C5: a connect request made while the instance is `Connecting` is
rejected with "already connecting", one made while `Connected` with
"already connected"; both rejections are explicit, and the instance —
state, queue, error flag, in-flight slot — is left completely
unchanged. -/
theorem connect_rejects_when_busy (s : ControlState) :
    (s.state = ConnState.Connecting →
      FFControl.connectGuard s = (Except.error "already connecting", s)) ∧
    (s.state = ConnState.Connected →
      FFControl.connectGuard s = (Except.error "already connected", s)) := by
  constructor
  · intro h
    simp [FFControl.connectGuard, h]
  · intro h
    simp [FFControl.connectGuard, h]

theorem connect_rejects_when_busy_witness :
    FFControl.connectGuard
        { state := ConnState.Connecting, queue := ["~M119\r\n"],
          error := none, inflight := none, writes := [],
          rejectedLog := [] } =
      (Except.error "already connecting",
        { state := ConnState.Connecting, queue := ["~M119\r\n"],
          error := none, inflight := none, writes := [],
          rejectedLog := [] }) ∧
    FFControl.connectGuard
        { state := ConnState.Connected, queue := [], error := none,
          inflight := none, writes := [], rejectedLog := [] } =
      (Except.error "already connected",
        { state := ConnState.Connected, queue := [], error := none,
          inflight := none, writes := [], rejectedLog := [] }) :=
  ⟨(connect_rejects_when_busy _).1 rfl, (connect_rejects_when_busy _).2 rfl⟩

theorem sendStep_drain_aux (q : List String) (s : ControlState)
    (hq : s.queue = q) (he : s.error = some "disconnected")
    (hs : s.state ≠ ConnState.Connected) :
    FFControl.sendStep^[q.length] s =
      { s with queue := [], rejectedLog :=
          s.rejectedLog ++ q.map (fun c => (c, "disconnected")) } := by
  induction q generalizing s with
  | nil =>
    obtain ⟨st, qu, er, infl, wr, rj⟩ := s
    dsimp only at hq he hs ⊢
    subst hq
    simp
  | cons c rest ih =>
    obtain ⟨st, qu, er, infl, wr, rj⟩ := s
    dsimp only at hq he hs ⊢
    subst hq
    subst he
    rw [List.length_cons, Function.iterate_succ_apply]
    have hstep : FFControl.sendStep
        { state := st, queue := c :: rest, error := some "disconnected",
          inflight := infl, writes := wr, rejectedLog := rj } =
        { state := st, queue := rest, error := some "disconnected",
          inflight := infl, writes := wr,
          rejectedLog := rj ++ [(c, "disconnected")] } := by
      simp only [FFControl.sendStep]
      simp [hs]
    rw [hstep, ih _ rfl rfl hs]
    simp

/-- C6: with the error condition flagged ("disconnected") and the
connection no longer `Connected`, running `_send` once per queued
command drains the entire queue: every dequeued command is failed
immediately with that error, and no command is ever written to the
socket (`writes`, like `state`, `error` and the in-flight slot, is
unchanged). -/
theorem send_drains_queue_on_error (s : ControlState)
    (he : s.error = some "disconnected")
    (hs : s.state ≠ ConnState.Connected) :
    FFControl.sendStep^[s.queue.length] s =
      { s with queue := [], rejectedLog :=
          s.rejectedLog ++ s.queue.map (fun c => (c, "disconnected")) } :=
  sendStep_drain_aux s.queue s rfl he hs

theorem send_drains_queue_on_error_witness :
    FFControl.sendStep^[2]
        { state := ConnState.Disconnected,
          queue := ["~M25\r\n", "~M27\r\n"],
          error := some "disconnected", inflight := none, writes := [],
          rejectedLog := [] } =
      { state := ConnState.Disconnected, queue := [],
        error := some "disconnected", inflight := none, writes := [],
        rejectedLog := [("~M25\r\n", "disconnected"),
                        ("~M27\r\n", "disconnected")] } :=
  send_drains_queue_on_error
    { state := ConnState.Disconnected, queue := ["~M25\r\n", "~M27\r\n"],
      error := some "disconnected", inflight := none, writes := [],
      rejectedLog := [] } rfl (by decide)

/-! ## Destination filename normalization in `print` (lines 464-511) -/

/-- The characters of `".gx"`. -/
def gxExt : List Char := ['.', 'g', 'x']

/-- Lines 466-468: `.gx` is appended only when `filename.indexOf(".gx")`
is negative, i.e. only when `".gx"` occurs nowhere in the name — a
containment check, not an ends-with check. -/
def normalizeGX (filename : List Char) : List Char :=
  if gxExt <:+: filename then filename else filename ++ gxExt

/-- Line 489: `filename = " 0:/user/" + (filename || "noname.gx")` —
the leading space is the argument separator in the command text. -/
def deviceFilename (filename : List Char) : List Char :=
  " 0:/user/".data ++
    (if normalizeGX filename = [] then "noname.gx".data
     else normalizeGX filename)

/-- Line 490: the begin-file-write command text
`M28 ${buffer.length} ${filename}`. -/
def m28Command (bufLen : Nat) (filename : List Char) : List Char :=
  "M28 ".data ++ (toString bufLen).data ++ " ".data ++
    deviceFilename filename

/-- Line 511: the start-print command text `M23 ${filename}`. -/
def m23Command (filename : List Char) : List Char :=
  "M23 ".data ++ deviceFilename filename

/-- C8 counterexample: for the destination filename "a.gxb" the check
`indexOf(".gx") < 0` already succeeds, so nothing is appended and the
name used on the device is "0:/user/a.gxb" — it contains ".gx" but does
not end with it, refuting the claim's "ends with". -/
theorem device_filename_cex :
    deviceFilename "a.gxb".data = " 0:/user/a.gxb".data ∧
    ¬ (gxExt <:+ deviceFilename "a.gxb".data) := by
  decide

/-- C8 (amended): the name used on the device always contains the
required ".gx" (appended only when absent) and is rooted under the
fixed prefix " 0:/user/"; the begin-file-write (M28) and start-print
(M23) commands are built from the very same normalized name. -/
theorem device_filename_spec (f : List Char) (n : Nat) :
    gxExt <:+: deviceFilename f ∧
    " 0:/user/".data <+: deviceFilename f ∧
    m28Command n f = "M28 ".data ++ (toString n).data ++ " ".data ++
      deviceFilename f ∧
    m23Command f = "M23 ".data ++ deviceFilename f := by
  refine ⟨?_, ⟨_, rfl⟩, rfl, rfl⟩
  have hn : gxExt <:+: normalizeGX f := by
    by_cases h : gxExt <:+: f
    · rw [normalizeGX, if_pos h]
      exact h
    · rw [normalizeGX, if_neg h]
      exact ⟨f, [], by simp⟩
  have hne : normalizeGX f ≠ [] := by
    intro h0
    rw [h0] at hn
    obtain ⟨s, t, hst⟩ := hn
    simp [gxExt] at hst
  rw [deviceFilename, if_neg hne]
  obtain ⟨s, t, hst⟩ := hn
  refine ⟨" 0:/user/".data ++ s, t, ?_⟩
  rw [← hst]
  simp [List.append_assoc]

/-! ## Telemetry parser (lines 144-165) -/

/-- JS `String.prototype.indexOf` for a single character, starting at
accumulator position `i`: the index of the first occurrence, or -1. -/
def jsIndexOfFrom (ch : Char) : List Char → Nat → Int
  | [], _ => -1
  | c :: cs, i => if c = ch then (i : Int) else jsIndexOfFrom ch cs (i + 1)

/-- JS `value.indexOf(ch)`. -/
def jsIndexOf (ch : Char) (l : List Char) : Int := jsIndexOfFrom ch l 0

/-- JS `String.prototype.split` with a single-character separator. -/
def jsSplit (sep : Char) : List Char → List (List Char)
  | [] => [[]]
  | c :: cs =>
    match jsSplit sep cs with
    | [] => [[c]]
    | h :: t => if c = sep then [] :: h :: t else (c :: h) :: t

/-- Decimal digit accumulator. -/
def digitsVal (ds : List Char) : Nat :=
  ds.foldl (fun a c => a * 10 + (c.toNat - 48)) 0

/-- JS `parseFloat`, restricted to the optional-sign decimal shapes that
occur in device replies (no exponent or whitespace handling); a string
with no leading numeric prefix parses to NaN, modelled as `none`. -/
def parseFloat? (s : List Char) : Option Rat :=
  let sr : Rat × List Char :=
    match s with
    | '-' :: r => (-1, r)
    | '+' :: r => (1, r)
    | _ => (1, s)
  let intPart := sr.2.takeWhile Char.isDigit
  let rest2 := sr.2.dropWhile Char.isDigit
  let fracPart :=
    match rest2 with
    | '.' :: r => r.takeWhile Char.isDigit
    | _ => []
  if intPart = [] ∧ fracPart = [] then none
  else some (sr.1 * ((digitsVal intPart : Rat) +
    (digitsVal fracPart : Rat) / (10 : Rat) ^ fracPart.length))

/-- A parsed value: a nested name→number mapping (JS `NaN` as `none`,
the object modelled as the ordered list of key/value assignments), or
the opaque text. -/
inductive MapValue where
  | nested (m : List (List Char × Option Rat)) : MapValue
  | text (s : List Char) : MapValue
deriving DecidableEq

/-- `value.replace(/: /g, ':')` (line 147): drop the space of every
": " occurrence, scanning left to right. -/
def replaceColonSpace : List Char → List Char
  | [] => []
  | [c] => [c]
  | c1 :: c2 :: rest =>
    if c1 = ':' ∧ c2 = ' ' then ':' :: replaceColonSpace rest
    else c1 :: replaceColonSpace (c2 :: rest)

/-- `v.split(':')` then `map[kv[0]] = parseFloat(kv[1])` (lines
149-150): when the piece has no colon, `kv[1]` is `undefined` and JS
`parseFloat(undefined)` is NaN. -/
def parsePair (p : List Char) : List Char × Option Rat :=
  let kv := jsSplit ':' p
  (kv.getD 0 [],
    match kv.get? 1 with
    | none => none
    | some t => parseFloat? t)

/-- `parseMapValue` (lines 144-156): when the value has a colon at
position > 0, replace ": " by ":", split on spaces and parse each piece
as `key:number`; otherwise return the text unchanged. -/
def parseMapValue (value : List Char) : MapValue :=
  if jsIndexOf ':' value > 0 then
    MapValue.nested ((jsSplit ' ' (replaceColonSpace value)).map parsePair)
  else MapValue.text value

/-- One line of `parseMapLines` (lines 161-162): split at the first
colon; the key is `substring(0, ci)`, the value starts two characters
after the colon position (`substring(ci + 2)`). -/
def parseMapLine (line : List Char) : List Char × MapValue :=
  let ci := jsIndexOf ':' line
  (line.take ci.toNat, parseMapValue (line.drop (ci + 2).toNat))

/-- `parseMapLines` (lines 158-165): `lines.slice(1)` skips the first
line (the echoed command), then each remaining line becomes one
key/value assignment. -/
def parseMapLines (lines : List (List Char)) :
    List (List Char × MapValue) :=
  (lines.drop 1).map parseMapLine

/-! ## Telemetry parser lemmas -/

theorem jsIndexOfFrom_append (ch : Char) (k rest : List Char) (i : Nat)
    (hk : ch ∉ k) :
    jsIndexOfFrom ch (k ++ ch :: rest) i = (i : Int) + k.length := by
  induction k generalizing i with
  | nil => simp [jsIndexOfFrom]
  | cons c k' ih =>
    simp only [List.mem_cons, not_or] at hk
    have hc : ¬ (c = ch) := fun hh => hk.1 hh.symm
    simp only [List.cons_append, jsIndexOfFrom, List.append_eq]
    rw [if_neg hc, ih (i + 1) hk.2]
    simp only [List.length_cons]
    omega

theorem jsSplit_ne_nil (sep : Char) (l : List Char) : jsSplit sep l ≠ [] := by
  cases l with
  | nil => simp [jsSplit]
  | cons c cs =>
    simp only [jsSplit]
    cases jsSplit sep cs with
    | nil => simp
    | cons h t => split_ifs <;> simp

theorem jsSplit_not_mem (sep : Char) (l : List Char) (h : sep ∉ l) :
    jsSplit sep l = [l] := by
  induction l with
  | nil => rfl
  | cons c cs ih =>
    simp only [List.mem_cons, not_or] at h
    have hc : ¬ (c = sep) := fun hh => h.1 hh.symm
    simp only [jsSplit, ih h.2]
    rw [if_neg hc]

theorem jsSplit_append (sep : Char) (k rest : List Char) (hk : sep ∉ k) :
    jsSplit sep (k ++ sep :: rest) = k :: jsSplit sep rest := by
  induction k with
  | nil =>
    simp only [List.nil_append, jsSplit]
    cases e : jsSplit sep rest with
    | nil => exact absurd e (jsSplit_ne_nil sep rest)
    | cons h t => simp
  | cons c k' ih =>
    simp only [List.mem_cons, not_or] at hk
    have hc : ¬ (c = sep) := fun hh => hk.1 hh.symm
    simp only [List.cons_append, jsSplit, List.append_eq, ih hk.2]
    rw [if_neg hc]

theorem parsePair_eq (k v : List Char) (hk : ':' ∉ k) (hv : ':' ∉ v) :
    parsePair (k ++ ':' :: v) = (k, parseFloat? v) := by
  unfold parsePair
  rw [jsSplit_append ':' k v hk, jsSplit_not_mem ':' v hv]
  rfl

/-- Whether the text contains a ": " occurrence (the pattern
`replaceColonSpace` rewrites). -/
def hasColonSpace : List Char → Bool
  | [] => false
  | [_] => false
  | c1 :: c2 :: rest =>
    if c1 = ':' ∧ c2 = ' ' then true else hasColonSpace (c2 :: rest)

theorem replace_eq_self (l : List Char) (h : hasColonSpace l = false) :
    replaceColonSpace l = l := by
  induction l with
  | nil => rfl
  | cons c t ih =>
    cases t with
    | nil => rfl
    | cons d t2 =>
      by_cases hcd : c = ':' ∧ d = ' '
      · simp [hasColonSpace, hcd] at h
      · have h2 : hasColonSpace (d :: t2) = false := by
          simpa [hasColonSpace, hcd] using h
        simp [replaceColonSpace, hcd, ih h2]

theorem hasColonSpace_append (k rest : List Char) (hk : ':' ∉ k)
    (hr : hasColonSpace rest = false) :
    hasColonSpace (k ++ rest) = false := by
  induction k with
  | nil => simpa
  | cons c k' ih =>
    simp only [List.mem_cons, not_or] at hk
    have hc : ¬ (c = ':') := fun hh => hk.1 hh.symm
    cases e : k' ++ rest with
    | nil => simp [List.cons_append, e, hasColonSpace]
    | cons d t =>
      rw [List.cons_append, e]
      simp only [hasColonSpace]
      rw [if_neg (fun hh => hc hh.1), ← e]
      exact ih hk.2

theorem hasColonSpace_colon_cons (v : List Char) (hv : v.head? ≠ some ' ')
    (h2 : hasColonSpace v = false) :
    hasColonSpace (':' :: v) = false := by
  cases v with
  | nil => rfl
  | cons d t =>
    have hd : ¬ (d = ' ') := by simpa using hv
    simp only [hasColonSpace]
    rw [if_neg (fun hh => hd hh.2)]
    exact h2

theorem hasColonSpace_space_cons (v : List Char)
    (h2 : hasColonSpace v = false) :
    hasColonSpace (' ' :: v) = false := by
  cases v with
  | nil => rfl
  | cons d t =>
    simp only [hasColonSpace]
    rw [if_neg (fun hh => absurd hh.1 (by decide))]
    exact h2

theorem hasColonSpace_no_colon (l : List Char) (h : ':' ∉ l) :
    hasColonSpace l = false := by
  have := hasColonSpace_append l [] h rfl
  simpa using this

/-- The textual form `k₀:v₀ k₁:v₁ …` of a list of key/value pairs. -/
def pairsText : List (List Char × List Char) → List Char
  | [] => []
  | p :: ps =>
    p.1 ++ ':' :: (p.2 ++
      (match ps with
       | [] => ([] : List Char)
       | _ :: _ => ' ' :: pairsText ps))

/-- A well-formed `key:number` piece: key and value non-empty, neither
containing a colon or a space. -/
def goodPair (p : List Char × List Char) : Prop :=
  p.1 ≠ [] ∧ ':' ∉ p.1 ∧ ' ' ∉ p.1 ∧ p.2 ≠ [] ∧ ':' ∉ p.2 ∧ ' ' ∉ p.2

instance (p : List Char × List Char) : Decidable (goodPair p) := by
  unfold goodPair
  infer_instance

theorem hasColonSpace_key_value (k v tail : List Char) (hk : ':' ∉ k)
    (hv1 : v ≠ []) (hv2 : ':' ∉ v) (hv3 : ' ' ∉ v)
    (ht : hasColonSpace tail = false) :
    hasColonSpace (k ++ ':' :: (v ++ tail)) = false := by
  apply hasColonSpace_append _ _ hk
  apply hasColonSpace_colon_cons
  · cases e : v with
    | nil => exact absurd e hv1
    | cons d t =>
      have hmem : d ∈ v := by
        rw [e]
        exact List.mem_cons_self d t
      have hd : d ≠ ' ' := fun hh => hv3 (hh ▸ hmem)
      simp [hd]
  · exact hasColonSpace_append v tail hv2 ht

theorem hasColonSpace_pairsText (ps : List (List Char × List Char))
    (h : ∀ p ∈ ps, goodPair p) :
    hasColonSpace (pairsText ps) = false := by
  induction ps with
  | nil => rfl
  | cons p ps' ih =>
    obtain ⟨hp1, hp2, hp3, hp4, hp5, hp6⟩ := h p (List.mem_cons_self p ps')
    cases ps' with
    | nil =>
      show hasColonSpace (p.1 ++ ':' :: (p.2 ++ [])) = false
      exact hasColonSpace_key_value p.1 p.2 [] hp2 hp4 hp5 hp6 rfl
    | cons q ps'' =>
      show hasColonSpace
          (p.1 ++ ':' :: (p.2 ++ ' ' :: pairsText (q :: ps''))) = false
      apply hasColonSpace_key_value p.1 p.2 _ hp2 hp4 hp5 hp6
      apply hasColonSpace_space_cons
      exact ih (fun x hx => h x (List.mem_cons_of_mem p hx))

theorem jsSplit_space_pairsText (p : List Char × List Char)
    (ps : List (List Char × List Char))
    (h : ∀ x ∈ p :: ps, goodPair x) :
    jsSplit ' ' (pairsText (p :: ps)) =
      (p :: ps).map (fun x => x.1 ++ ':' :: x.2) := by
  induction ps generalizing p with
  | nil =>
    obtain ⟨hp1, hp2, hp3, hp4, hp5, hp6⟩ := h p (List.mem_cons_self p [])
    show jsSplit ' ' (p.1 ++ ':' :: (p.2 ++ [])) = [p.1 ++ ':' :: p.2]
    rw [List.append_nil]
    apply jsSplit_not_mem
    intro hmem
    rcases List.mem_append.mp hmem with h1 | h2
    · exact hp3 h1
    · rcases List.mem_cons.mp h2 with h3 | h4
      · exact absurd h3 (by decide)
      · exact hp6 h4
  | cons q ps'' ih =>
    obtain ⟨hp1, hp2, hp3, hp4, hp5, hp6⟩ :=
      h p (List.mem_cons_self p (q :: ps''))
    have e : pairsText (p :: q :: ps'') =
        (p.1 ++ ':' :: p.2) ++ ' ' :: pairsText (q :: ps'') := by
      show p.1 ++ ':' :: (p.2 ++ ' ' :: pairsText (q :: ps'')) = _
      simp [List.append_assoc]
    rw [e, jsSplit_append]
    · rw [ih q (fun x hx => h x (List.mem_cons_of_mem p hx))]
      rfl
    · intro hmem
      rcases List.mem_append.mp hmem with h1 | h2
      · exact hp3 h1
      · rcases List.mem_cons.mp h2 with h3 | h4
        · exact absurd h3 (by decide)
        · exact hp6 h4

theorem parseMapValue_nested (p : List Char × List Char)
    (ps : List (List Char × List Char))
    (h : ∀ x ∈ p :: ps, goodPair x) :
    parseMapValue (pairsText (p :: ps)) =
      MapValue.nested ((p :: ps).map (fun x => (x.1, parseFloat? x.2))) := by
  obtain ⟨hp1, hp2, hp3, hp4, hp5, hp6⟩ :=
    h p (List.mem_cons_self p ps)
  have he : ∃ rest, pairsText (p :: ps) = p.1 ++ ':' :: rest := by
    cases ps with
    | nil => exact ⟨p.2 ++ [], rfl⟩
    | cons q ps' => exact ⟨p.2 ++ ' ' :: pairsText (q :: ps'), rfl⟩
  have hpos : jsIndexOf ':' (pairsText (p :: ps)) > 0 := by
    obtain ⟨rest, he⟩ := he
    rw [he, jsIndexOf, jsIndexOfFrom_append ':' p.1 rest 0 hp2]
    have : 0 < p.1.length := List.length_pos.mpr hp1
    omega
  rw [parseMapValue, if_pos hpos,
      replace_eq_self _ (hasColonSpace_pairsText (p :: ps) h),
      jsSplit_space_pairsText p ps h, List.map_map]
  congr 1
  apply List.map_congr_left
  intro x hx
  obtain ⟨hx1, hx2, hx3, hx4, hx5, hx6⟩ := h x hx
  exact parsePair_eq x.1 x.2 hx2 hx5

theorem parseMapLine_eq (k v : List Char) (hk : ':' ∉ k) :
    parseMapLine (k ++ ':' :: ' ' :: v) = (k, parseMapValue v) := by
  simp only [parseMapLine]
  have hidx : jsIndexOf ':' (k ++ ':' :: ' ' :: v) = (k.length : Int) := by
    rw [jsIndexOf, jsIndexOfFrom_append ':' k (' ' :: v) 0 hk]
    simp
  rw [hidx]
  have h1 : ((k.length : Int)).toNat = k.length := by omega
  have h2 : ((k.length : Int) + 2).toNat = k.length + 2 := by omega
  rw [h1, h2]
  congr 1
  · exact List.take_left' rfl
  · congr 1
    have e : k ++ ':' :: ' ' :: v = (k ++ [':', ' ']) ++ v := by simp
    rw [e]
    apply List.drop_left'
    simp

theorem parseMapLines_eq (first : List Char)
    (rows : List (List Char × List Char))
    (h : ∀ r ∈ rows, ':' ∉ r.1) :
    parseMapLines (first :: rows.map (fun r => r.1 ++ ':' :: ' ' :: r.2)) =
      rows.map (fun r => (r.1, parseMapValue r.2)) := by
  show (rows.map (fun r => r.1 ++ ':' :: ' ' :: r.2)).map parseMapLine =
    rows.map (fun r => (r.1, parseMapValue r.2))
  rw [List.map_map]
  apply List.map_congr_left
  intro r hr
  exact parseMapLine_eq r.1 r.2 (h r hr)

/-- C9 counterexample: on the reply lines "A: x" and "B: y" the parser
produces only the assignment for "B" — `lines.slice(1)` skips the first
line, so the claim's "splits each line" fails on the first line. -/
theorem parse_keyed_block_cex :
    parseMapLines ["A: x".data, "B: y".data] =
      [("B".data, MapValue.text "y".data)] ∧
    ¬ ("A".data ∈ (parseMapLines ["A: x".data, "B: y".data]).map
        Prod.fst) := by
  decide

/-- C9 (amended): the parser skips the first line (the echoed command);
each remaining line of the form `key ++ ": " ++ value` is split at its
first colon into an assignment of `key` to the parsed value, where a
value whose colon sits at position > 0 is split into space-separated
`key:number` pairs parsed recursively into a name→number mapping (a
number that fails to parse becomes NaN — `none` — rather than failing
the block), and any other value is kept as opaque text. -/
theorem parse_keyed_block_spec :
    (∀ (first : List Char) (rows : List (List Char × List Char)),
      (∀ r ∈ rows, ':' ∉ r.1) →
      parseMapLines
          (first :: rows.map (fun r => r.1 ++ ':' :: ' ' :: r.2)) =
        rows.map (fun r => (r.1, parseMapValue r.2))) ∧
    (∀ v : List Char, ¬ jsIndexOf ':' v > 0 →
      parseMapValue v = MapValue.text v) ∧
    (∀ (p : List Char × List Char) (ps : List (List Char × List Char)),
      (∀ x ∈ p :: ps, goodPair x) →
      parseMapValue (pairsText (p :: ps)) =
        MapValue.nested
          ((p :: ps).map (fun x => (x.1, parseFloat? x.2)))) := by
  refine ⟨parseMapLines_eq, ?_, parseMapValue_nested⟩
  intro v hv
  rw [parseMapValue, if_neg hv]

theorem parse_keyed_block_spec_witness :
    parseMapLines ["CMD M119 Received.".data, "MachineStatus: READY".data] =
      [("MachineStatus".data, parseMapValue "READY".data)] ∧
    parseMapValue "READY".data = MapValue.text "READY".data ∧
    parseMapValue "T0:12 B:abc".data =
      MapValue.nested [("T0".data, parseFloat? "12".data),
                       ("B".data, parseFloat? "abc".data)] ∧
    parseFloat? "abc".data = none :=
  ⟨parse_keyed_block_spec.1 "CMD M119 Received.".data
      [("MachineStatus".data, "READY".data)] (by decide),
   parse_keyed_block_spec.2.1 "READY".data (by decide),
   parse_keyed_block_spec.2.2 ("T0".data, "12".data)
      [("B".data, "abc".data)] (by decide),
   by decide⟩
